import Mathlib

/-!
Verification of the `setup-npm-trusted-publish` CLI (`src/bin/cli.js`).

The tool is one linear script: parse flags, validate the package name
against a regex, create a temp directory, write two generated files
(`package.json` and `README.md`), then either print dry-run instructions
or shell out to `npm publish`, and finally (on the paths that reach it)
remove the temp directory.

Shallow embedding conventions:
* The parsed option values (`values` from `parseArgs`, cli.js:9-31) are a
  `CliValues` record; the positionals list is passed separately.
* The external world (the tool's own version string, the random temp
  directory path, whether `npm publish` exits zero, whether `rm` succeeds,
  and the error messages those collaborators produce) is a `World` record.
  `mkdir` and `writeFile` are modelled as succeeding: no claim concerns a
  failing file write, and the outer `catch` (cli.js:192-194) is otherwise
  unreachable.
* One invocation is the pure function `run : CliValues → List String →
  World → RunResult`.  `RunResult` records the exit code, the text printed
  to stdout / stderr / the warning channel (one list entry per console
  call, in call order, streams tracked separately), which files were
  written, whether the publish command was invoked and with which command
  line, and the temp-directory lifecycle.
* Node semantics note: `process.exit(1)` terminates the Node process
  immediately; a pending `finally` block does NOT execute.  So on the
  publish-failure path (cli.js:182-190) and the outer-catch path the
  cleanup in the `finally` (cli.js:195-205) is skipped.  This matches the
  message the code itself prints there: "Package files are still
  available at: ..." (cli.js:185).
-/

/-! ## Package-name validation (cli.js:75, `validPackageNameRegex`)

The regex is `^(?:@[a-z0-9-~][a-z0-9-._~]*\/)?[a-z0-9-~][a-z0-9-._~]*$`.
Since neither character class contains `/`, a matching string either has
no `/` and no leading `@` (bare name), or starts with `@`, has exactly one
`/`, and both the scope (between `@` and `/`) and the name (after `/`)
are a start character followed by rest characters. -/

/-- Character class `[a-z0-9-~]` of the regex at cli.js:75. -/
def isNameStartChar (c : Char) : Bool :=
  (decide (Char.ofNat 97 ≤ c) && decide (c ≤ Char.ofNat 122)) ||
  (decide (Char.ofNat 48 ≤ c) && decide (c ≤ Char.ofNat 57)) ||
  decide (c = Char.ofNat 45) || decide (c = Char.ofNat 126)

/-- Character class `[a-z0-9-._~]` of the regex at cli.js:75. -/
def isNameRestChar (c : Char) : Bool :=
  isNameStartChar c || decide (c = Char.ofNat 46) || decide (c = Char.ofNat 95)

/-- One name part of the regex: `[a-z0-9-~][a-z0-9-._~]*`. -/
def validNamePart : List Char → Bool
  | [] => false
  | c :: rest => isNameStartChar c && rest.all isNameRestChar

/-- Split a character list at its first `/`: `some (before, after)`, or
`none` when no `/` occurs.  Used to decompose `@scope/name` the way the
regex does (the scope class cannot match `/`, so the first `/` ends it). -/
def splitAtSlash : List Char → Option (List Char × List Char)
  | [] => none
  | c :: rest =>
    if c = '/' then some ([], rest)
    else
      match splitAtSlash rest with
      | none => none
      | some (a, b) => some (c :: a, b)

/-- `validPackageNameRegex.test` (cli.js:75-76) as an executable matcher:
a string starting with `@` must decompose as `@scope/name` with both
parts matching the name-part grammar; any other string must itself match
the name-part grammar (which excludes `@` and `/`). -/
def validPackageNameChars : List Char → Bool
  | [] => false
  | c :: rest =>
    if c = '@' then
      match splitAtSlash rest with
      | none => false
      | some (scope, name) => validNamePart scope && validNamePart name
    else validNamePart (c :: rest)

/-- `validPackageNameRegex.test(packageName)` at cli.js:76. -/
def validPackageName (s : String) : Bool :=
  validPackageNameChars s.toList

/-- First character is `@`. -/
def firstIsAt : List Char → Bool
  | [] => false
  | c :: _ => c == '@'

/-- `packageName.startsWith('@')` (cli.js:161, 166, 188). -/
def startsWithAtSign (s : String) : Bool :=
  firstIsAt s.toList

/-! ### Spec-side reading of the naming grammar

These definitions follow the spec's grammar string
`^(@[a-z0-9-~][a-z0-9-._~]*/)?[a-z0-9-~][a-z0-9-._~]*$` stated as a
structural language, to be compared with the executable matcher above. -/

/-- The class `[a-z0-9-~]`, as a proposition. -/
def StartChar (c : Char) : Prop :=
  (Char.ofNat 97 ≤ c ∧ c ≤ Char.ofNat 122) ∨
  (Char.ofNat 48 ≤ c ∧ c ≤ Char.ofNat 57) ∨
  c = Char.ofNat 45 ∨ c = Char.ofNat 126

/-- The class `[a-z0-9-._~]`, as a proposition. -/
def RestChar (c : Char) : Prop :=
  StartChar c ∨ c = Char.ofNat 46 ∨ c = Char.ofNat 95

/-- Membership in the language of the grammar
`^(@[a-z0-9-~][a-z0-9-._~]*/)?[a-z0-9-~][a-z0-9-._~]*$`: either a bare
name part, or `@` followed by a name part, `/`, and a second name part. -/
def MatchesGrammar (cs : List Char) : Prop :=
  (∃ c rest, cs = c :: rest ∧ StartChar c ∧ ∀ d ∈ rest, RestChar d) ∨
  (∃ s0 srest n0 nrest,
    cs = '@' :: ((s0 :: srest) ++ '/' :: n0 :: nrest) ∧
    StartChar s0 ∧ (∀ d ∈ srest, RestChar d) ∧
    StartChar n0 ∧ (∀ d ∈ nrest, RestChar d))

/-- A scoped package name: `@scope/name` shape. -/
def ScopedName (s : String) : Prop :=
  ∃ scope name, s.toList = '@' :: (scope ++ '/' :: name)

/-! ## Generated artifacts (cli.js:92-152) -/

/-- The manifest record built at cli.js:92-97. -/
structure PackageManifest where
  name : String
  version : String
  description : String
  keywords : List String

/-- `packageJson` (cli.js:92-97). -/
def mkPackageJson (packageName : String) : PackageManifest :=
  { name := packageName
    version := "0.0.1"
    description := "OIDC trusted publishing setup package for " ++ packageName
    keywords := ["oidc", "trusted-publishing", "setup"] }

/-- Lowercase hexadecimal digit, for JSON control-character escapes. -/
def hexDigit (n : Nat) : Char :=
  if n < 10 then Char.ofNat (48 + n) else Char.ofNat (87 + n)

/-- `JSON.stringify` escaping of one character inside a string literal:
quote and backslash get a backslash, the named control characters get
their short escapes, other control characters get `\u00XX`, everything
else is emitted as-is. -/
def jsonEscapeChar (c : Char) : String :=
  if c = Char.ofNat 34 then "\\\""
  else if c = Char.ofNat 92 then "\\\\"
  else if c = Char.ofNat 8 then "\\b"
  else if c = Char.ofNat 9 then "\\t"
  else if c = Char.ofNat 10 then "\\n"
  else if c = Char.ofNat 12 then "\\f"
  else if c = Char.ofNat 13 then "\\r"
  else if c.toNat < 32 then
    "\\u00" ++ String.mk [hexDigit (c.toNat / 16), hexDigit (c.toNat % 16)]
  else String.mk [c]

/-- `JSON.stringify` escaping of a whole string value. -/
def jsonEscape (s : String) : String :=
  String.join (s.toList.map jsonEscapeChar)

/-- `JSON.stringify(packageJson, null, 2)` (cli.js:101) for the fixed
four-field manifest shape: 2-space indentation, the keyword array
expanded one element per line. -/
def renderPackageJsonBody (m : PackageManifest) : String :=
  "\x7b\n  \"name\": \"" ++ jsonEscape m.name ++
  "\",\n  \"version\": \"" ++ jsonEscape m.version ++
  "\",\n  \"description\": \"" ++ jsonEscape m.description ++
  "\",\n  \"keywords\": [\n" ++
  String.intercalate ",\n" (m.keywords.map (fun k => "    \"" ++ jsonEscape k ++ "\"")) ++
  "\n  ]\n\x7d"

/-- The `package.json` file content: `JSON.stringify(..., null, 2) + '\n'`
(cli.js:99-102). -/
def renderPackageJson (m : PackageManifest) : String :=
  renderPackageJsonBody m ++ "\n"

/-- `readmeContent` (cli.js:105-150): the fixed README template with the
package name interpolated in the title and in purpose item 1. -/
def readmeContent (packageName : String) : String :=
  "# " ++ packageName ++
  "\n\n## ⚠️ IMPORTANT NOTICE ⚠️\n\n**This package is created solely for the purpose of setting up OIDC (OpenID Connect) trusted publishing with npm.**\n\nThis is **NOT** a functional package and contains **NO** code or functionality beyond the OIDC setup configuration.\n\n## Purpose\n\nThis package exists to:\n1. Configure OIDC trusted publishing for the package name \x60" ++
  packageName ++
  "\x60\n2. Enable secure, token-less publishing from CI/CD workflows\n3. Establish provenance for packages published under this name\n\n## What is OIDC Trusted Publishing?\n\nOIDC trusted publishing allows package maintainers to publish packages directly from their CI/CD workflows without needing to manage npm access tokens. Instead, it uses OpenID Connect to establish trust between the CI/CD provider (like GitHub Actions) and npm.\n\n## Setup Instructions\n\nTo properly configure OIDC trusted publishing for this package:\n\n1. Go to [npmjs.com](https://www.npmjs.com/) and navigate to your package settings\n2. Configure the trusted publisher (e.g., GitHub Actions)\n3. Specify the repository and workflow that should be allowed to publish\n4. Use the configured workflow to publish your actual package\n\n## DO NOT USE THIS PACKAGE\n\nThis package is a placeholder for OIDC configuration only. It:\n- Contains no executable code\n- Provides no functionality\n- Should not be installed as a dependency\n- Exists only for administrative purposes\n\n## More Information\n\nFor more details about npm\x27s trusted publishing feature, see:\n- [npm Trusted Publishing Documentation](https://docs.npmjs.com/generating-provenance-statements)\n- [GitHub Actions OIDC Documentation](https://docs.github.com/en/actions/deployment/security-hardening-your-deployments/about-security-hardening-with-openid-connect)\n\n---\n\n**Maintained for OIDC setup purposes only**\n"

/-- The two files written into the temp directory, in write order
(cli.js:99-102 then cli.js:152), as (file name, content) pairs. -/
def generatedFiles (packageName : String) : List (String × String) :=
  [("package.json", renderPackageJson (mkPackageJson packageName)),
   ("README.md", readmeContent packageName)]

/-! ## Command construction (cli.js:161, 166-168, 188) -/

/-- `publishCmd` (cli.js:166-168). -/
def publishCmd (packageName access : String) : String :=
  if startsWithAtSign packageName then "npm publish --access " ++ access
  else "npm publish"

/-- The manual-publish instruction line printed in the dry-run branch
(cli.js:161) and in the publish-failure branch (cli.js:188):
`  npm publish` plus ` --access <level>` when the name starts with `@`. -/
def manualPublishLine (packageName access : String) : String :=
  "  npm publish" ++
  (if startsWithAtSign packageName then " --access " ++ access else "")

/-! ## Invocation model -/

/-- The parsed option values (`values` from `parseArgs`, cli.js:9-31).
`access` is declared `type: 'string'` with default `'public'`
(cli.js:25-28); `parseArgs` performs no further validation of it. -/
structure CliValues where
  help : Bool
  version : Bool
  dryRun : Bool
  access : String

/-- `parseArgs` handling of the `--access` option value (cli.js:25-28):
the given string when present, its declared default `'public'` otherwise. -/
def parsedAccess (given : Option String) : String :=
  given.getD "public"

/-- The external collaborators of one invocation: the tool's own version
string (read from its package metadata, cli.js:61-62), the random temp
directory path (cli.js:83-84), whether `execSync('npm publish ...')`
exits zero, the failure message it throws otherwise (cli.js:171-184),
whether `rm` of the temp directory succeeds, and the message it throws
otherwise (cli.js:199-202). -/
structure World where
  toolVersion : String
  tempDir : String
  publishOk : Bool
  publishErrMsg : String
  rmOk : Bool
  rmErrMsg : String

/-- Observable outcome of one invocation. -/
structure RunResult where
  exitCode : Nat
  stdout : List String
  stderr : List String
  warnings : List String
  tempDirCreated : Bool
  filesWritten : List (String × String)
  publishInvoked : Bool
  publishCmdRun : Option String
  rmAttempted : Bool
  tempDirExistsAfter : Bool

/-- Outcome with nothing printed, nothing created, exit code 0. -/
def emptyResult : RunResult :=
  { exitCode := 0
    stdout := []
    stderr := []
    warnings := []
    tempDirCreated := false
    filesWritten := []
    publishInvoked := false
    publishCmdRun := none
    rmAttempted := false
    tempDirExistsAfter := false }

/-- The usage text printed by `--help` (cli.js:34-56). -/
def usageText : String :=
  "\nUsage: setup-npm-trusted-publish <package-name>\n\nSetup npm package for trusted publishing with OIDC by publishing a placeholder package\n\nArguments:\n  <package-name>  The name of the npm package to setup\n\nOptions:\n  -h, --help      Show help\n  -v, --version   Show version\n  --dry-run       Create the package but don\x27t publish\n  --access        Access level for scoped packages (public/restricted) [default: public]\n\nExample:\n  setup-npm-trusted-publish my-package\n  setup-npm-trusted-publish @scope/my-package\n\nNote:\n  This tool creates and publishes a placeholder package for OIDC setup.\n  The package contains only a README.md that clearly indicates it\x27s for\n  OIDC configuration purposes only.\n"

/-- `values.help` branch (cli.js:33-58): print usage, exit 0, touch
nothing. -/
def helpResult : RunResult :=
  { emptyResult with stdout := [usageText] }

/-- `values.version` branch (cli.js:60-64): print the tool version,
exit 0, touch nothing. -/
def versionResult (w : World) : RunResult :=
  { emptyResult with stdout := [w.toolVersion] }

/-- Missing (or empty, which is falsy in JS) positional (cli.js:68-72). -/
def missingNameResult : RunResult :=
  { emptyResult with
    exitCode := 1
    stderr := ["Error: Package name is required",
               "Usage: setup-npm-trusted-publish <package-name>"] }

/-- Regex-rejected package name (cli.js:76-80): error on stderr, exit 1,
before any filesystem action. -/
def invalidNameResult (packageName : String) : RunResult :=
  { emptyResult with
    exitCode := 1
    stderr := ["Error: Invalid package name: " ++ packageName,
               "Package names must be lowercase and can contain letters, numbers, hyphens, periods, and underscores"] }

/-- The stdout lines printed by every invocation that passes validation
(cli.js:87-88, 154). -/
def preambleStdout (w : World) (packageName : String) : List String :=
  ["📦 Creating placeholder package: " ++ packageName,
   "📁 Temp directory: " ++ w.tempDir,
   "✅ Created placeholder package files"]

/-- Dry-run branch (cli.js:156-161): print location and manual publish
instructions; the `finally` skips `rm` because `values['dry-run']` is set
(cli.js:197), so the directory and files persist; the script then ends
with exit code 0. -/
def dryRunResult (v : CliValues) (w : World) (packageName : String) : RunResult :=
  { exitCode := 0
    stdout := preambleStdout w packageName ++
      ["\n🔍 Dry run mode - package created but not published",
       "📁 Package location: " ++ w.tempDir,
       "\nTo publish manually:",
       "  cd " ++ w.tempDir,
       manualPublishLine packageName v.access]
    stderr := []
    warnings := []
    tempDirCreated := true
    filesWritten := generatedFiles packageName
    publishInvoked := false
    publishCmdRun := none
    rmAttempted := false
    tempDirExistsAfter := true }

/-- Publish-success branch (cli.js:170-181) followed by the `finally`
cleanup (cli.js:195-204): `rm` is attempted; on `rm` success a cleanup
message is printed, on `rm` failure a warning is printed instead
(cli.js:202) and the directory remains; either way the script ends with
exit code 0. -/
def publishSuccessResult (v : CliValues) (w : World) (packageName : String) : RunResult :=
  { exitCode := 0
    stdout := preambleStdout w packageName ++
      ["\n📤 Publishing package to npm...",
       "\n✅ Successfully published: " ++ packageName,
       "\n🔗 View your package at: https://www.npmjs.com/package/" ++ packageName,
       "\nNext steps:",
       "1. Go to https://www.npmjs.com/package/" ++ packageName ++ "/access",
       "2. Configure OIDC trusted publishing",
       "3. Set up your CI/CD workflow to publish with OIDC"] ++
      (if w.rmOk then ["\n🧹 Cleaned up temp directory"] else [])
    stderr := []
    warnings :=
      if w.rmOk then []
      else ["⚠️  Could not clean up temp directory: " ++ w.rmErrMsg]
    tempDirCreated := true
    filesWritten := generatedFiles packageName
    publishInvoked := true
    publishCmdRun := some (publishCmd packageName v.access)
    rmAttempted := true
    tempDirExistsAfter := !w.rmOk }

/-- Publish-failure branch (cli.js:182-190): error and failure message on
stderr, manual-publish instructions on stdout, then `process.exit(1)` at
cli.js:189.  `process.exit` terminates the Node process immediately, so
the `finally` block (cli.js:195-205) does not run: no `rm` is attempted
and the directory with both files stays on disk — consistent with the
message printed at cli.js:185 that the files are still available. -/
def publishFailureResult (v : CliValues) (w : World) (packageName : String) : RunResult :=
  { exitCode := 1
    stdout := preambleStdout w packageName ++
      ["\n📤 Publishing package to npm...",
       "\n📁 Package files are still available at: " ++ w.tempDir,
       "You can try publishing manually:",
       "  cd " ++ w.tempDir,
       manualPublishLine packageName v.access]
    stderr := ["\n❌ Failed to publish package",
               "Error: " ++ w.publishErrMsg]
    warnings := []
    tempDirCreated := true
    filesWritten := generatedFiles packageName
    publishInvoked := true
    publishCmdRun := some (publishCmd packageName v.access)
    rmAttempted := false
    tempDirExistsAfter := true }

/-- One full invocation of `src/bin/cli.js`, following its linear control
flow: help (cli.js:33), version (cli.js:60), missing/empty positional
(cli.js:66-72, note JS treats the empty string as falsy), regex
validation (cli.js:74-80), then the dry-run / publish-success /
publish-failure branches with their cleanup behavior as modelled above. -/
def run (v : CliValues) (positionals : List String) (w : World) : RunResult :=
  if v.help then helpResult
  else if v.version then versionResult w
  else
    let packageName := positionals.head?.getD ""
    if packageName = "" then missingNameResult
    else if validPackageName packageName then
      (if v.dryRun then dryRunResult v w packageName
       else if w.publishOk then publishSuccessResult v w packageName
       else publishFailureResult v w packageName)
    else invalidNameResult packageName

/-! ## Sample concrete inputs, used to instantiate the theorems below -/

/-- Collaborator behavior sample: publish succeeds, cleanup succeeds. -/
def sampleWorldPublishOk : World :=
  ⟨"1.0.0", "/tmp/npm-oidc-setup-0123456789abcdef", true, "", true, ""⟩

/-- Collaborator behavior sample: publish exits non-zero. -/
def sampleWorldPublishFail : World :=
  ⟨"1.0.0", "/tmp/npm-oidc-setup-0123456789abcdef", false,
   "Command failed: npm publish", true, ""⟩

/-- Collaborator behavior sample: publish succeeds, removal of the temp
directory fails. -/
def sampleWorldRmFail : World :=
  ⟨"1.0.0", "/tmp/npm-oidc-setup-0123456789abcdef", true, "", false,
   "EACCES: permission denied"⟩

/-- Parsed values sample: no flags, all defaults. -/
def sampleVals : CliValues := ⟨false, false, false, "public"⟩

/-- Parsed values sample: `--dry-run`. -/
def sampleValsDry : CliValues := ⟨false, false, true, "public"⟩

/-- Parsed values sample: `--help`. -/
def sampleValsHelp : CliValues := ⟨true, false, false, "public"⟩

/-! ## Helper lemmas -/

theorem isNameStartChar_iff (c : Char) : isNameStartChar c = true ↔ StartChar c := by
  simp [isNameStartChar, StartChar, Bool.or_eq_true, Bool.and_eq_true,
    decide_eq_true_eq, or_assoc]

theorem isNameRestChar_iff (c : Char) : isNameRestChar c = true ↔ RestChar c := by
  simp [isNameRestChar, RestChar, Bool.or_eq_true, decide_eq_true_eq,
    isNameStartChar_iff, or_assoc]

theorem validNamePart_iff (cs : List Char) :
    validNamePart cs = true ↔
      ∃ c rest, cs = c :: rest ∧ StartChar c ∧ ∀ d ∈ rest, RestChar d := by
  cases cs with
  | nil => simp [validNamePart]
  | cons c rest =>
    simp only [validNamePart, Bool.and_eq_true, List.all_eq_true,
      isNameStartChar_iff, isNameRestChar_iff]
    constructor
    · rintro ⟨h1, h2⟩
      exact ⟨c, rest, rfl, h1, h2⟩
    · rintro ⟨c2, rest2, heq, h1, h2⟩
      obtain ⟨rfl, rfl⟩ := List.cons.injEq .. ▸ heq
      exact ⟨h1, h2⟩

theorem splitAtSlash_eq_some {cs a b : List Char}
    (h : splitAtSlash cs = some (a, b)) : cs = a ++ '/' :: b := by
  induction cs generalizing a b with
  | nil => simp [splitAtSlash] at h
  | cons c rest ih =>
    by_cases hc : c = '/'
    · subst hc
      simp [splitAtSlash] at h
      obtain ⟨rfl, rfl⟩ := h
      rfl
    · simp only [splitAtSlash, if_neg hc] at h
      cases hsr : splitAtSlash rest with
      | none => rw [hsr] at h; simp at h
      | some p =>
        obtain ⟨a2, b2⟩ := p
        rw [hsr] at h
        simp at h
        obtain ⟨rfl, rfl⟩ := h
        simpa using congrArg (c :: ·) (ih hsr)

theorem splitAtSlash_append {a : List Char} (b : List Char) (h : '/' ∉ a) :
    splitAtSlash (a ++ '/' :: b) = some (a, b) := by
  induction a with
  | nil => simp [splitAtSlash]
  | cons c a ih =>
    have hc : ¬ c = '/' := fun e => h (e ▸ List.mem_cons_self c a)
    have ih2 := ih (fun m => h (List.mem_cons_of_mem c m))
    simp [splitAtSlash, hc, ih2, List.append_eq]

theorem not_StartChar_slash : ¬ StartChar '/' := by
  unfold StartChar; decide

theorem not_RestChar_slash : ¬ RestChar '/' := by
  unfold RestChar StartChar; decide

theorem not_StartChar_at : ¬ StartChar '@' := by
  unfold StartChar; decide

theorem slash_not_mem_part {s0 : Char} {srest : List Char}
    (h0 : StartChar s0) (h1 : ∀ d ∈ srest, RestChar d) :
    '/' ∉ (s0 :: srest) := by
  intro hm
  rcases List.mem_cons.mp hm with he | hm2
  · exact not_StartChar_slash (he ▸ h0)
  · exact not_RestChar_slash (h1 _ hm2)

theorem validPackageNameChars_iff (cs : List Char) :
    validPackageNameChars cs = true ↔ MatchesGrammar cs := by
  constructor
  · intro h
    cases cs with
    | nil => simp [validPackageNameChars] at h
    | cons c rest =>
      by_cases hc : c = '@'
      · subst hc
        simp only [validPackageNameChars, eq_self_iff_true, if_true] at h
        cases hss : splitAtSlash rest with
        | none => rw [hss] at h; simp at h
        | some p =>
          obtain ⟨scope, name⟩ := p
          rw [hss] at h
          simp only [Bool.and_eq_true] at h
          obtain ⟨s0, srest, hseq, hs0, hsr⟩ := (validNamePart_iff scope).mp h.1
          obtain ⟨n0, nrest, hneq, hn0, hnr⟩ := (validNamePart_iff name).mp h.2
          have hd := splitAtSlash_eq_some hss
          refine Or.inr ⟨s0, srest, n0, nrest, ?_, hs0, hsr, hn0, hnr⟩
          rw [hd, hseq, hneq]
      · simp only [validPackageNameChars, if_neg hc] at h
        obtain ⟨c2, rest2, heq, h1, h2⟩ := (validNamePart_iff _).mp h
        exact Or.inl ⟨c2, rest2, heq, h1, h2⟩
  · intro h
    unfold MatchesGrammar at h
    rcases h with ⟨c, rest, rfl, hstart, hrest⟩ |
      ⟨s0, srest, n0, nrest, rfl, hs0, hsr, hn0, hnr⟩
    · have hc : c ≠ '@' := fun e => not_StartChar_at (e ▸ hstart)
      simp only [validPackageNameChars, if_neg hc]
      exact (validNamePart_iff _).mpr ⟨c, rest, rfl, hstart, hrest⟩
    · have hsplit := splitAtSlash_append (n0 :: nrest) (slash_not_mem_part hs0 hsr)
      simp only [validPackageNameChars, eq_self_iff_true, if_true, hsplit, Bool.and_eq_true]
      exact ⟨(validNamePart_iff _).mpr ⟨s0, srest, rfl, hs0, hsr⟩,
             (validNamePart_iff _).mpr ⟨n0, nrest, rfl, hn0, hnr⟩⟩

theorem validPackageName_iff (s : String) :
    validPackageName s = true ↔ MatchesGrammar s.toList :=
  validPackageNameChars_iff s.toList

theorem scoped_iff (s : String) (hv : validPackageName s = true) :
    startsWithAtSign s = true ↔ ScopedName s := by
  constructor
  · intro h
    unfold validPackageName at hv
    simp only [startsWithAtSign] at h
    cases hl : s.toList with
    | nil => rw [hl] at h; simp [firstIsAt] at h
    | cons c rest =>
      rw [hl] at h hv
      have hc : c = '@' := by simpa [firstIsAt] using h
      subst hc
      simp only [validPackageNameChars, eq_self_iff_true, if_true] at hv
      cases hss : splitAtSlash rest with
      | none => rw [hss] at hv; simp at hv
      | some p =>
        obtain ⟨scope, name⟩ := p
        exact ⟨scope, name, by rw [hl, splitAtSlash_eq_some hss]⟩
  · rintro ⟨scope, name, hl⟩
    simp only [startsWithAtSign]
    rw [hl]
    simp [firstIsAt]

theorem run_proceeds (v : CliValues) (s : String) (w : World)
    (hh : v.help = false) (hver : v.version = false)
    (hv : validPackageName s = true) :
    run v [s] w =
      (if v.dryRun then dryRunResult v w s
       else if w.publishOk then publishSuccessResult v w s
       else publishFailureResult v w s) := by
  have hne : ¬ (s = "") := by
    intro he
    rw [he] at hv
    exact absurd hv (by decide)
  simp [run, hh, hver, hne, hv]

theorem filesWritten_proceeds (v : CliValues) (s : String) (w : World)
    (hh : v.help = false) (hver : v.version = false)
    (hv : validPackageName s = true) :
    (run v [s] w).filesWritten = generatedFiles s := by
  rw [run_proceeds v s w hh hver hv]
  cases hd : v.dryRun <;> cases hp : w.publishOk <;>
    simp [dryRunResult, publishSuccessResult, publishFailureResult]

theorem exitCode_rmOk_indep (v : CliValues) (ps : List String) (w : World) (b : Bool) :
    (run v ps { w with rmOk := b }).exitCode = (run v ps w).exitCode := by
  by_cases h1 : v.help
  · simp [run, h1]
  · by_cases h2 : v.version
    · simp [run, h1, h2, versionResult]
    · by_cases h3 : (ps.head?.getD "") = ""
      · simp [run, h1, h2, h3]
      · by_cases h4 : validPackageName (ps.head?.getD "")
        · by_cases h5 : v.dryRun
          · simp [run, h1, h2, h3, h4, h5, dryRunResult]
          · by_cases h6 : w.publishOk
            · simp [run, h1, h2, h3, h4, h5, h6, publishSuccessResult]
            · simp [run, h1, h2, h3, h4, h5, h6, publishFailureResult]
        · simp [run, h1, h2, h3, h4]

theorem bare_ne_withAccess (a : String) :
    ("npm publish" : String) ≠ "npm publish --access " ++ a := by
  intro h
  have h2 := congrArg String.length h
  rw [String.length_append] at h2
  have e1 : ("npm publish" : String).length = 11 := rfl
  have e2 : ("npm publish --access " : String).length = 21 := rfl
  rw [e1, e2] at h2
  omega

theorem manualBare_ne_withAccess (a : String) :
    ("  npm publish" : String) ≠ "  npm publish --access " ++ a := by
  intro h
  have h2 := congrArg String.length h
  rw [String.length_append] at h2
  have e1 : ("  npm publish" : String).length = 13 := rfl
  have e2 : ("  npm publish --access " : String).length = 23 := rfl
  rw [e1, e2] at h2
  omega

theorem dryRun_no_publish_no_rm (v : CliValues) (ps : List String) (w : World)
    (hd : v.dryRun = true) :
    (run v ps w).publishInvoked = false ∧ (run v ps w).rmAttempted = false := by
  by_cases h1 : v.help
  · simp [run, h1, helpResult, emptyResult]
  · by_cases h2 : v.version
    · simp [run, h1, h2, versionResult, emptyResult]
    · by_cases h3 : (ps.head?.getD "") = ""
      · simp [run, h1, h2, h3, missingNameResult, emptyResult]
      · by_cases h4 : validPackageName (ps.head?.getD "")
        · simp [run, h1, h2, h3, h4, hd, dryRunResult]
        · simp [run, h1, h2, h3, h4, invalidNameResult, emptyResult]

/-! ## Claims -/

/-- C9: an invocation with `--help` prints the usage text and exits with
status 0 immediately: no validation outcome, no filesystem action, and no
publish happen, whatever the positionals (missing or invalid included)
and whatever the external world does. -/
theorem claim_C9_help (v : CliValues) (ps : List String) (w : World)
    (hh : v.help = true) :
    (run v ps w).exitCode = 0 ∧
    (run v ps w).stdout = [usageText] ∧
    (run v ps w).stderr = [] ∧
    (run v ps w).tempDirCreated = false ∧
    (run v ps w).filesWritten = [] ∧
    (run v ps w).publishInvoked = false ∧
    (run v ps w).rmAttempted = false := by
  simp [run, hh, helpResult, emptyResult]

/-- C9 witness: `--help` with an invalid positional still exits 0 with
only the usage text. -/
theorem claim_C9_help_witness :
    sampleValsHelp.help = true ∧
    ((run sampleValsHelp ["Invalid Name"] sampleWorldPublishOk).exitCode = 0 ∧
     (run sampleValsHelp ["Invalid Name"] sampleWorldPublishOk).stdout = [usageText] ∧
     (run sampleValsHelp ["Invalid Name"] sampleWorldPublishOk).stderr = [] ∧
     (run sampleValsHelp ["Invalid Name"] sampleWorldPublishOk).tempDirCreated = false ∧
     (run sampleValsHelp ["Invalid Name"] sampleWorldPublishOk).filesWritten = [] ∧
     (run sampleValsHelp ["Invalid Name"] sampleWorldPublishOk).publishInvoked = false ∧
     (run sampleValsHelp ["Invalid Name"] sampleWorldPublishOk).rmAttempted = false) :=
  ⟨rfl, claim_C9_help sampleValsHelp ["Invalid Name"] sampleWorldPublishOk rfl⟩

/-- C2: the validator accepts a string iff it is in the language of the
naming grammar, and every rejected string leads to exit code 1 with an
error on stderr and no filesystem mutation (no temp directory, no files,
no publish, no removal). -/
theorem claim_C2_validation (s : String) (v : CliValues) (w : World)
    (hh : v.help = false) (hver : v.version = false) :
    (validPackageName s = true ↔ MatchesGrammar s.toList) ∧
    (validPackageName s = false →
      (run v [s] w).exitCode = 1 ∧
      (run v [s] w).tempDirCreated = false ∧
      (run v [s] w).filesWritten = [] ∧
      (run v [s] w).publishInvoked = false ∧
      (run v [s] w).rmAttempted = false ∧
      (run v [s] w).stderr ≠ []) := by
  refine ⟨validPackageName_iff s, fun hf => ?_⟩
  by_cases he : s = ""
  · subst he
    simp [run, hh, hver, missingNameResult, emptyResult]
  · simp [run, hh, hver, he, hf, invalidNameResult, emptyResult]

/-- C2 witness: the uppercase-and-space string is rejected with exit 1,
an error on stderr, and no filesystem effect. -/
theorem claim_C2_validation_witness :
    validPackageName "Invalid_Name!" = false ∧
    ((run sampleVals ["Invalid_Name!"] sampleWorldPublishOk).exitCode = 1 ∧
     (run sampleVals ["Invalid_Name!"] sampleWorldPublishOk).tempDirCreated = false ∧
     (run sampleVals ["Invalid_Name!"] sampleWorldPublishOk).filesWritten = [] ∧
     (run sampleVals ["Invalid_Name!"] sampleWorldPublishOk).publishInvoked = false ∧
     (run sampleVals ["Invalid_Name!"] sampleWorldPublishOk).rmAttempted = false ∧
     (run sampleVals ["Invalid_Name!"] sampleWorldPublishOk).stderr ≠ []) :=
  ⟨rfl, (claim_C2_validation "Invalid_Name!" sampleVals sampleWorldPublishOk rfl rfl).2 rfl⟩

/-- C5: a dry-run invocation never invokes the publish command and never
attempts removal (whatever the positionals); when it passes parsing and
validation it creates the directory, writes both generated files, leaves
them on disk, and exits with status 0. -/
theorem claim_C5_dryRun (v : CliValues) (s : String) (w : World)
    (hh : v.help = false) (hver : v.version = false)
    (hd : v.dryRun = true) (hv : validPackageName s = true) :
    (∀ ps : List String,
      (run v ps w).publishInvoked = false ∧ (run v ps w).rmAttempted = false) ∧
    (run v [s] w).publishInvoked = false ∧
    (run v [s] w).publishCmdRun = none ∧
    (run v [s] w).rmAttempted = false ∧
    (run v [s] w).tempDirCreated = true ∧
    (run v [s] w).tempDirExistsAfter = true ∧
    (run v [s] w).filesWritten = generatedFiles s ∧
    (run v [s] w).exitCode = 0 := by
  refine ⟨fun ps => dryRun_no_publish_no_rm v ps w hd, ?_⟩
  rw [run_proceeds v s w hh hver hv]
  simp [hd, dryRunResult]

/-- C5 witness: `--dry-run my-package` leaves the directory and both
files in place, runs no publish, and exits 0. -/
theorem claim_C5_dryRun_witness :
    sampleValsDry.dryRun = true ∧ validPackageName "my-package" = true ∧
    ((∀ ps : List String,
      (run sampleValsDry ps sampleWorldPublishOk).publishInvoked = false ∧
      (run sampleValsDry ps sampleWorldPublishOk).rmAttempted = false) ∧
     (run sampleValsDry ["my-package"] sampleWorldPublishOk).publishInvoked = false ∧
     (run sampleValsDry ["my-package"] sampleWorldPublishOk).publishCmdRun = none ∧
     (run sampleValsDry ["my-package"] sampleWorldPublishOk).rmAttempted = false ∧
     (run sampleValsDry ["my-package"] sampleWorldPublishOk).tempDirCreated = true ∧
     (run sampleValsDry ["my-package"] sampleWorldPublishOk).tempDirExistsAfter = true ∧
     (run sampleValsDry ["my-package"] sampleWorldPublishOk).filesWritten = generatedFiles "my-package" ∧
     (run sampleValsDry ["my-package"] sampleWorldPublishOk).exitCode = 0) :=
  ⟨rfl, rfl,
   claim_C5_dryRun sampleValsDry "my-package" sampleWorldPublishOk rfl rfl rfl rfl⟩

/-- C6: a non-dry-run invocation whose publish succeeds attempts the
cleanup, and the directory is gone afterwards whenever the OS removal
succeeds; the exit status is 0.  `s` ranges over all accepted names, so
this covers scoped and unscoped names alike. -/
theorem claim_C6_success_cleanup (v : CliValues) (s : String) (w : World)
    (hh : v.help = false) (hver : v.version = false) (hd : v.dryRun = false)
    (hv : validPackageName s = true) (hp : w.publishOk = true) :
    (run v [s] w).exitCode = 0 ∧
    (run v [s] w).publishInvoked = true ∧
    (run v [s] w).rmAttempted = true ∧
    (w.rmOk = true → (run v [s] w).tempDirExistsAfter = false) := by
  rw [run_proceeds v s w hh hver hv]
  refine ⟨by simp [hd, hp, publishSuccessResult], by simp [hd, hp, publishSuccessResult],
    by simp [hd, hp, publishSuccessResult], fun hr => ?_⟩
  simp [hd, hp, hr, publishSuccessResult]

/-- C6 witness: successful publish of an unscoped name removes the temp
directory and exits 0. -/
theorem claim_C6_success_cleanup_witness :
    validPackageName "my-package" = true ∧ sampleWorldPublishOk.publishOk = true ∧
    ((run sampleVals ["my-package"] sampleWorldPublishOk).exitCode = 0 ∧
     (run sampleVals ["my-package"] sampleWorldPublishOk).publishInvoked = true ∧
     (run sampleVals ["my-package"] sampleWorldPublishOk).rmAttempted = true ∧
     (sampleWorldPublishOk.rmOk = true →
      (run sampleVals ["my-package"] sampleWorldPublishOk).tempDirExistsAfter = false)) :=
  ⟨rfl, rfl,
   claim_C6_success_cleanup sampleVals "my-package" sampleWorldPublishOk rfl rfl rfl rfl rfl⟩

/-- C8: when removal of the temp directory fails (which the code only
reaches after a successful non-dry-run publish), a warning is emitted and
the exit code is the 0 the prior steps determined; moreover, for every
invocation whatsoever the exit code is independent of whether removal
succeeds. -/
theorem claim_C8_cleanup_warning (v : CliValues) (s : String) (w : World)
    (hh : v.help = false) (hver : v.version = false) (hd : v.dryRun = false)
    (hv : validPackageName s = true) (hp : w.publishOk = true)
    (hr : w.rmOk = false) :
    ((run v [s] w).warnings =
       ["⚠️  Could not clean up temp directory: " ++ w.rmErrMsg] ∧
     (run v [s] w).rmAttempted = true ∧
     (run v [s] w).exitCode = 0) ∧
    (∀ (v2 : CliValues) (ps : List String) (w2 : World) (b : Bool),
      (run v2 ps { w2 with rmOk := b }).exitCode = (run v2 ps w2).exitCode) := by
  refine ⟨?_, fun v2 ps w2 b => exitCode_rmOk_indep v2 ps w2 b⟩
  rw [run_proceeds v s w hh hver hv]
  simp [hd, hp, hr, publishSuccessResult]

/-- C8 witness: publish succeeds, removal fails: a warning is printed and
the exit code stays 0. -/
theorem claim_C8_cleanup_warning_witness :
    sampleWorldRmFail.publishOk = true ∧ sampleWorldRmFail.rmOk = false ∧
    (((run sampleVals ["my-package"] sampleWorldRmFail).warnings =
        ["⚠️  Could not clean up temp directory: " ++ sampleWorldRmFail.rmErrMsg] ∧
      (run sampleVals ["my-package"] sampleWorldRmFail).rmAttempted = true ∧
      (run sampleVals ["my-package"] sampleWorldRmFail).exitCode = 0) ∧
     (∀ (v2 : CliValues) (ps : List String) (w2 : World) (b : Bool),
       (run v2 ps { w2 with rmOk := b }).exitCode = (run v2 ps w2).exitCode)) :=
  ⟨rfl, rfl,
   claim_C8_cleanup_warning sampleVals "my-package" sampleWorldRmFail rfl rfl rfl rfl rfl rfl⟩

/-- C10: the contents of the two generated files depend on the accepted
package name alone: two invocations with the same name produce
byte-for-byte identical files, whatever the dry-run flag, access value,
and external-world behavior. -/
theorem claim_C10_deterministic (s : String) (v1 v2 : CliValues) (w1 w2 : World)
    (h1 : v1.help = false) (h2 : v1.version = false)
    (h3 : v2.help = false) (h4 : v2.version = false)
    (hv : validPackageName s = true) :
    (run v1 [s] w1).filesWritten = (run v2 [s] w2).filesWritten := by
  rw [filesWritten_proceeds v1 s w1 h1 h2 hv,
      filesWritten_proceeds v2 s w2 h3 h4 hv]

/-- C10 witness: a dry run and a failing real publish of the same scoped
name write identical files. -/
theorem claim_C10_deterministic_witness :
    validPackageName "@scope/my-package" = true ∧
    (run sampleValsDry ["@scope/my-package"] sampleWorldPublishOk).filesWritten =
      (run sampleVals ["@scope/my-package"] sampleWorldPublishFail).filesWritten :=
  ⟨rfl,
   claim_C10_deterministic "@scope/my-package" sampleValsDry sampleVals
     sampleWorldPublishOk sampleWorldPublishFail rfl rfl rfl rfl rfl⟩

/-- C3: for every accepted package name the generated manifest carries the
input name verbatim, version 0.0.1, the description template interpolating
the name, and exactly the three fixed keywords; the serialized file is the
pretty-printed body with a trailing newline, and both generated files are
written on every proceeding path. -/
theorem claim_C3_manifest (s : String) (v : CliValues) (w : World)
    (hh : v.help = false) (hver : v.version = false)
    (hv : validPackageName s = true) :
    (mkPackageJson s).name = s ∧
    (mkPackageJson s).version = "0.0.1" ∧
    (mkPackageJson s).description = "OIDC trusted publishing setup package for " ++ s ∧
    (mkPackageJson s).keywords = ["oidc", "trusted-publishing", "setup"] ∧
    (run v [s] w).filesWritten =
      [("package.json", renderPackageJsonBody (mkPackageJson s) ++ "\n"),
       ("README.md", readmeContent s)] := by
  refine ⟨rfl, rfl, rfl, rfl, ?_⟩
  rw [filesWritten_proceeds v s w hh hver hv]
  rfl

/-- C3 witness: the manifest generated for `my-package`. -/
theorem claim_C3_manifest_witness :
    validPackageName "my-package" = true ∧
    ((mkPackageJson "my-package").name = "my-package" ∧
     (mkPackageJson "my-package").version = "0.0.1" ∧
     (mkPackageJson "my-package").description =
       "OIDC trusted publishing setup package for " ++ "my-package" ∧
     (mkPackageJson "my-package").keywords = ["oidc", "trusted-publishing", "setup"] ∧
     (run sampleVals ["my-package"] sampleWorldPublishOk).filesWritten =
       [("package.json", renderPackageJsonBody (mkPackageJson "my-package") ++ "\n"),
        ("README.md", readmeContent "my-package")]) :=
  ⟨rfl, claim_C3_manifest "my-package" sampleVals sampleWorldPublishOk rfl rfl rfl⟩

/-- C4: for every accepted name, the publish command carries the
`--access` argument iff the name is scoped, the printed manual-publish
line does too, the real publish path runs exactly that command, and the
dry-run path prints exactly that line. -/
theorem claim_C4_access_iff_scoped (v : CliValues) (s : String) (w : World)
    (hh : v.help = false) (hver : v.version = false)
    (hv : validPackageName s = true) :
    (publishCmd s v.access = "npm publish --access " ++ v.access ↔ ScopedName s) ∧
    (publishCmd s v.access = "npm publish" ↔ ¬ ScopedName s) ∧
    (manualPublishLine s v.access = "  npm publish --access " ++ v.access ↔ ScopedName s) ∧
    (manualPublishLine s v.access = "  npm publish" ↔ ¬ ScopedName s) ∧
    (v.dryRun = false → (run v [s] w).publishCmdRun = some (publishCmd s v.access)) ∧
    (v.dryRun = true → manualPublishLine s v.access ∈ (run v [s] w).stdout) := by
  have hsc := scoped_iff s hv
  have hrun := run_proceeds v s w hh hver hv
  by_cases hat : startsWithAtSign s = true
  · have hS : ScopedName s := hsc.mp hat
    have pc : publishCmd s v.access = "npm publish --access " ++ v.access := by
      simp [publishCmd, hat]
    have ml : manualPublishLine s v.access = "  npm publish --access " ++ v.access := by
      simp only [manualPublishLine, hat, eq_self_iff_true, if_true]
      rw [← String.append_assoc]; rfl
    refine ⟨⟨fun _ => hS, fun _ => pc⟩, ⟨?_, fun hns => (hns hS).elim⟩,
      ⟨fun _ => hS, fun _ => ml⟩, ⟨?_, fun hns => (hns hS).elim⟩, ?_, ?_⟩
    · intro hbare
      rw [pc] at hbare
      exact (bare_ne_withAccess v.access hbare.symm).elim
    · intro hbare
      rw [ml] at hbare
      exact (manualBare_ne_withAccess v.access hbare.symm).elim
    · intro hd
      rw [hrun]
      cases hp : w.publishOk <;>
        simp [hd, hp, publishSuccessResult, publishFailureResult]
    · intro hd
      rw [hrun]
      simp [hd, dryRunResult]
  · have hatf : startsWithAtSign s = false := by
      cases h : startsWithAtSign s
      · rfl
      · exact absurd h hat
    have hS : ¬ ScopedName s := fun hsn => hat (hsc.mpr hsn)
    have pc : publishCmd s v.access = "npm publish" := by
      simp [publishCmd, hatf]
    have ml : manualPublishLine s v.access = "  npm publish" := by
      simp [manualPublishLine, hatf]
    refine ⟨⟨?_, fun hsn => (hS hsn).elim⟩, ⟨fun _ => hS, fun _ => pc⟩,
      ⟨?_, fun hsn => (hS hsn).elim⟩, ⟨fun _ => hS, fun _ => ml⟩, ?_, ?_⟩
    · intro hacc
      rw [pc] at hacc
      exact (bare_ne_withAccess v.access hacc).elim
    · intro hacc
      rw [ml] at hacc
      exact (manualBare_ne_withAccess v.access hacc).elim
    · intro hd
      rw [hrun]
      cases hp : w.publishOk <;>
        simp [hd, hp, publishSuccessResult, publishFailureResult]
    · intro hd
      rw [hrun]
      simp [hd, dryRunResult]

/-- C4 witness: the scoped name `@scope/my-package` in a dry run gets the
access argument in the printed manual command. -/
theorem claim_C4_access_iff_scoped_witness :
    validPackageName "@scope/my-package" = true ∧
    ((publishCmd "@scope/my-package" sampleValsDry.access =
        "npm publish --access " ++ sampleValsDry.access ↔ ScopedName "@scope/my-package") ∧
     (publishCmd "@scope/my-package" sampleValsDry.access = "npm publish" ↔
        ¬ ScopedName "@scope/my-package") ∧
     (manualPublishLine "@scope/my-package" sampleValsDry.access =
        "  npm publish --access " ++ sampleValsDry.access ↔ ScopedName "@scope/my-package") ∧
     (manualPublishLine "@scope/my-package" sampleValsDry.access = "  npm publish" ↔
        ¬ ScopedName "@scope/my-package") ∧
     (sampleValsDry.dryRun = false →
       (run sampleValsDry ["@scope/my-package"] sampleWorldPublishOk).publishCmdRun =
         some (publishCmd "@scope/my-package" sampleValsDry.access)) ∧
     (sampleValsDry.dryRun = true →
       manualPublishLine "@scope/my-package" sampleValsDry.access ∈
         (run sampleValsDry ["@scope/my-package"] sampleWorldPublishOk).stdout)) :=
  ⟨rfl, claim_C4_access_iff_scoped sampleValsDry "@scope/my-package"
    sampleWorldPublishOk rfl rfl rfl⟩

/-- C1 counterexample: with a valid unscoped name and a failing publish,
the process exits 1 but no removal is attempted, the temp directory
remains, and no removal warning is shown — `process.exit(1)` inside the
catch (cli.js:189) prevents the `finally` cleanup from running. -/
theorem claim_C1_counterexample :
    (run sampleVals ["my-pkg"] sampleWorldPublishFail).exitCode = 1 ∧
    (run sampleVals ["my-pkg"] sampleWorldPublishFail).publishInvoked = true ∧
    (run sampleVals ["my-pkg"] sampleWorldPublishFail).rmAttempted = false ∧
    (run sampleVals ["my-pkg"] sampleWorldPublishFail).tempDirExistsAfter = true ∧
    (run sampleVals ["my-pkg"] sampleWorldPublishFail).warnings = [] :=
  ⟨rfl, rfl, rfl, rfl, rfl⟩

/-- C1 amended: on a non-dry-run publish failure the tool prints the
error with the underlying failure message, prints the manual-publish
instructions referencing the preserved directory, and exits with status
1; the cleanup step is NOT performed — no removal is attempted and the
temp directory with both files remains on disk. -/
theorem claim_C1_publish_failure (v : CliValues) (s : String) (w : World)
    (hh : v.help = false) (hver : v.version = false) (hd : v.dryRun = false)
    (hv : validPackageName s = true) (hp : w.publishOk = false) :
    (run v [s] w).exitCode = 1 ∧
    (run v [s] w).publishInvoked = true ∧
    (run v [s] w).stderr =
      ["\n❌ Failed to publish package", "Error: " ++ w.publishErrMsg] ∧
    ("\n📁 Package files are still available at: " ++ w.tempDir) ∈ (run v [s] w).stdout ∧
    manualPublishLine s v.access ∈ (run v [s] w).stdout ∧
    (run v [s] w).rmAttempted = false ∧
    (run v [s] w).tempDirExistsAfter = true ∧
    (run v [s] w).filesWritten = generatedFiles s ∧
    (run v [s] w).warnings = [] := by
  rw [run_proceeds v s w hh hver hv]
  simp [hd, hp, publishFailureResult, preambleStdout]

/-- C1 amended witness: concrete failing publish of `my-pkg`. -/
theorem claim_C1_publish_failure_witness :
    validPackageName "my-pkg" = true ∧
    sampleWorldPublishFail.publishOk = false ∧
    ((run sampleVals ["my-pkg"] sampleWorldPublishFail).exitCode = 1 ∧
     (run sampleVals ["my-pkg"] sampleWorldPublishFail).publishInvoked = true ∧
     (run sampleVals ["my-pkg"] sampleWorldPublishFail).stderr =
       ["\n❌ Failed to publish package",
        "Error: " ++ sampleWorldPublishFail.publishErrMsg] ∧
     ("\n📁 Package files are still available at: " ++ sampleWorldPublishFail.tempDir) ∈
       (run sampleVals ["my-pkg"] sampleWorldPublishFail).stdout ∧
     manualPublishLine "my-pkg" sampleVals.access ∈
       (run sampleVals ["my-pkg"] sampleWorldPublishFail).stdout ∧
     (run sampleVals ["my-pkg"] sampleWorldPublishFail).rmAttempted = false ∧
     (run sampleVals ["my-pkg"] sampleWorldPublishFail).tempDirExistsAfter = true ∧
     (run sampleVals ["my-pkg"] sampleWorldPublishFail).filesWritten = generatedFiles "my-pkg" ∧
     (run sampleVals ["my-pkg"] sampleWorldPublishFail).warnings = []) :=
  ⟨rfl, rfl,
   claim_C1_publish_failure sampleVals "my-pkg" sampleWorldPublishFail rfl rfl rfl rfl rfl⟩

/-- C7 counterexample: `--access bogus` is outside the documented enum,
yet the invocation proceeds all the way to the publish command, which
receives the value verbatim, and exits 0. -/
theorem claim_C7_counterexample :
    ("bogus" ≠ "public" ∧ "bogus" ≠ "restricted") ∧
    (run ⟨false, false, false, "bogus"⟩ ["@scope/pkg"] sampleWorldPublishOk).publishInvoked = true ∧
    (run ⟨false, false, false, "bogus"⟩ ["@scope/pkg"] sampleWorldPublishOk).publishCmdRun =
      some "npm publish --access bogus" ∧
    (run ⟨false, false, false, "bogus"⟩ ["@scope/pkg"] sampleWorldPublishOk).exitCode = 0 :=
  ⟨⟨by decide, by decide⟩, rfl, rfl, rfl⟩

/-- C7 amended: the access option is an unvalidated string defaulting to
`public`; whatever its value, an invocation with an accepted name
proceeds and passes the value verbatim into the publish command. -/
theorem claim_C7_access_unvalidated (a : String) (s : String) (w : World)
    (hv : validPackageName s = true) :
    parsedAccess none = "public" ∧
    parsedAccess (some a) = a ∧
    (run ⟨false, false, false, a⟩ [s] w).publishInvoked = true ∧
    (run ⟨false, false, false, a⟩ [s] w).publishCmdRun = some (publishCmd s a) := by
  have hrun := run_proceeds ⟨false, false, false, a⟩ s w rfl rfl hv
  refine ⟨rfl, rfl, ?_, ?_⟩ <;>
    · rw [hrun]
      cases hp : w.publishOk <;>
        simp [hp, publishSuccessResult, publishFailureResult]

/-- C7 amended witness: `--access restricted` is passed through. -/
theorem claim_C7_access_unvalidated_witness :
    validPackageName "pkg-a" = true ∧
    (parsedAccess none = "public" ∧
     parsedAccess (some "restricted") = "restricted" ∧
     (run ⟨false, false, false, "restricted"⟩ ["pkg-a"] sampleWorldPublishFail).publishInvoked = true ∧
     (run ⟨false, false, false, "restricted"⟩ ["pkg-a"] sampleWorldPublishFail).publishCmdRun =
       some (publishCmd "pkg-a" "restricted")) :=
  ⟨rfl, claim_C7_access_unvalidated "restricted" "pkg-a" sampleWorldPublishFail rfl⟩
